import Mathlib

/-!
Verification of the USB hub device-topology manager of this repository
(file src/drivers/usb/gadget/u_serial.h, which despite its name carries the
hub driver: port status reading, debounce, reset wait, device-number
allocation, device-state transitions, port ownership and topology queries).

Each C function relevant to a claim is shallowly embedded as an executable
Lean definition, keeping the source names and the exact control flow.
Hardware reads (control transfers) are modelled as input streams indexed by
the attempt number; sleeps are recorded rather than performed; machine
integers are Nat or Int, with wrap-around modelled where it can matter.
-/

/-! ## Constants from the source and from the kernel headers it includes -/

/-- Errno values (include/uapi/asm-generic/errno-base.h and errno.h);
the driver returns their negations. -/
def ENOENT : Int := 2
def ENODEV : Int := 19
def EINVAL : Int := 22
def EBUSY : Int := 16
def EPIPE : Int := 32
def ETIMEDOUT : Int := 110
def ENOTCONN : Int := 107

/-- Port status bits (include/uapi/linux/usb/ch11.h). -/
def USB_PORT_STAT_CONNECTION : Nat := 0x0001
def USB_PORT_STAT_ENABLE : Nat := 0x0002
def USB_PORT_STAT_RESET : Nat := 0x0010
def USB_PORT_STAT_LOW_SPEED : Nat := 0x0200
def USB_PORT_STAT_HIGH_SPEED : Nat := 0x0400
def USB_PORT_STAT_LINK_STATE : Nat := 0x01e0
def USB_SS_PORT_LS_SS_INACTIVE : Nat := 0x00c0
def USB_SS_PORT_LS_COMP_MOD : Nat := 0x0140

/-- Port change bits (ch11.h). -/
def USB_PORT_STAT_C_CONNECTION : Nat := 0x0001

/-- Debounce constants, u_serial.h lines 161-163.  Note the source comment
above hub_port_debounce still speaks of a 1500 ms window, but the constant
compiled into the driver is 2000 ms. -/
def HUB_DEBOUNCE_TIMEOUT : Nat := 2000
def HUB_DEBOUNCE_STEP : Nat := 25
def HUB_DEBOUNCE_STABLE : Nat := 100

/-- Reset wait constants, u_serial.h lines 2153-2157. -/
def HUB_ROOT_RESET_TIME : Nat := 50
def HUB_SHORT_RESET_TIME : Nat := 10
def HUB_LONG_RESET_TIME : Nat := 200
def HUB_RESET_TIMEOUT : Nat := 800

/-- GET_STATUS retry constants, u_serial.h lines 465-466. -/
def USB_STS_RETRIES : Nat := 5

/-! ## C1: hub_port_debounce (u_serial.h lines 3241-3282)

One reading of port status through hub_port_status is modelled as a record:
ret is the return of hub_port_status (0 on success, negative errno on
failure), status and change are the decoded 16-bit words written through
its out parameters.  The hardware is an input stream, a function from the
sample index to the record; the usb_clear_port_feature call inside the
loop only affects the hub hardware, which the stream already abstracts. -/

structure PortSample where
  ret : Int
  status : Nat
  change : Nat

/-- Loop body of hub_port_debounce.  The state mirrors the C locals:
k is the index of the next sample, total_time and stable_time the two
millisecond counters, connection the remembered connection bit (initially
0xffff).  The pair returned is (return value of the C function, value of
total_time when the function returns).  fuel bounds the recursion; from
the entry point, fuel 81 is never exhausted because the loop breaks once
total_time reaches HUB_DEBOUNCE_TIMEOUT = 25 * 80. -/
def hub_port_debounce_loop (sample : Nat → PortSample) (must_be_connected : Bool) :
    Nat → Nat → Nat → Nat → Nat → Int × Nat
  | 0, _, total_time, _, _ => (-ETIMEDOUT, total_time)
  | fuel + 1, k, total_time, stable_time, connection =>
    let s := sample k
    if s.ret < 0 then (s.ret, total_time)
    else
      let hit : Bool := (s.change &&& USB_PORT_STAT_C_CONNECTION == 0) &&
        (s.status &&& USB_PORT_STAT_CONNECTION == connection)
      let stable' : Nat :=
        if hit then
          (if !must_be_connected || (connection == USB_PORT_STAT_CONNECTION) then
            stable_time + HUB_DEBOUNCE_STEP
          else stable_time)
        else 0
      let connection' : Nat :=
        if hit then connection else s.status &&& USB_PORT_STAT_CONNECTION
      if hit && decide (HUB_DEBOUNCE_STABLE ≤ stable') then
        (if stable' < HUB_DEBOUNCE_STABLE then -ETIMEDOUT else (s.status : Int), total_time)
      else if HUB_DEBOUNCE_TIMEOUT ≤ total_time then
        (if stable' < HUB_DEBOUNCE_STABLE then -ETIMEDOUT else (s.status : Int), total_time)
      else
        hub_port_debounce_loop sample must_be_connected fuel (k + 1)
          (total_time + HUB_DEBOUNCE_STEP) stable' connection'

/-- hub_port_debounce, u_serial.h lines 3241-3282.  Returns the C return
value paired with the final total_time. -/
def hub_port_debounce (sample : Nat → PortSample) (must_be_connected : Bool) : Int × Nat :=
  hub_port_debounce_loop sample must_be_connected 81 0 0 0 0xffff

/-- A status stream whose connection bit toggles on every sample, with no
transfer errors and no change bits: the adversarial input of the claim. -/
def toggleSample : Nat → PortSample := fun k => ⟨0, k % 2, 0⟩

example : hub_port_debounce toggleSample true = (-ETIMEDOUT, 2000) := by decide

/-- A stream that stays connected: debounce succeeds after 100 ms stable. -/
example : hub_port_debounce (fun _ => ⟨0, 1, 0⟩) true = (1, 100) := by decide

/-! ## C3: usb_set_lpm_sel (u_serial.h lines 257-278)

The function walks the parent chain of the device to count the external
hubs between the device and the root port, then accumulates the System
Exit Latency into the lpm parameter block.  The parent chain is modelled
as a nested option structure (parent = none means a root hub device); the
arithmetic is unsigned 32-bit, so every accumulation is taken mod 2^32. -/

inductive UsbAncestry where
  | mk (parent : Option UsbAncestry) : UsbAncestry

/-- The counting loop of usb_set_lpm_sel: starting from udev.parent,
walk up while the current node still has a parent, counting steps. -/
def num_hubs_loop : UsbAncestry → Nat
  | .mk none => 0
  | .mk (some p) => num_hubs_loop p + 1

/-- usb_set_lpm_sel, u_serial.h lines 257-278.  parent is udev.parent
(the C dereferences it unconditionally, so it exists), pel the previously
computed Path Exit Latency of the device for this link state.  Returns the
sel field written into the parameter block. -/
def usb_set_lpm_sel (parent : UsbAncestry) (pel : Nat) : Nat :=
  let num_hubs := num_hubs_loop parent
  let total_sel := pel % 2 ^ 32
  let total_sel :=
    if 0 < num_hubs then (total_sel + (2100 + 250 * (num_hubs - 1)) % 2 ^ 32) % 2 ^ 32
    else total_sel
  (total_sel + (250 * num_hubs) % 2 ^ 32) % 2 ^ 32

/-- Depth helper: an ancestry chain with n links above the starting node. -/
def chainOfDepth : Nat → UsbAncestry
  | 0 => .mk none
  | n + 1 => .mk (some (chainOfDepth n))

example : num_hubs_loop (chainOfDepth 2) = 2 := by decide
example : usb_set_lpm_sel (chainOfDepth 2) 100000 = 100000 + 2100 + 250 * 1 + 250 * 2 := by decide
example : usb_set_lpm_sel (chainOfDepth 0) 777 = 777 := by decide

/-! ## C4: get_hub_status and get_port_status (u_serial.h lines 465-494)

The usb_control_msg results are an input stream attempt, one Int per try
(negative errno on failure, otherwise the transferred length).  Each
function returns the C return value paired with the number of control
transfers actually issued. -/

/-- The retry loop shared by get_hub_status and get_port_status:
status starts at -ETIMEDOUT, and while fewer than USB_STS_RETRIES attempts
have been made and status is -ETIMEDOUT or -EPIPE, the next attempt is
issued.  fuel is USB_STS_RETRIES - i. -/
def get_status_retry_loop (attempt : Nat → Int) : Nat → Nat → Int → Int × Nat
  | 0, i, status => (status, i)
  | fuel + 1, i, status =>
    if status == -ETIMEDOUT || status == -EPIPE then
      get_status_retry_loop attempt fuel (i + 1) (attempt i)
    else (status, i)

/-- get_hub_status, u_serial.h lines 468-480. -/
def get_hub_status (attempt : Nat → Int) : Int × Nat :=
  get_status_retry_loop attempt USB_STS_RETRIES 0 (-ETIMEDOUT)

/-- get_port_status, u_serial.h lines 482-494. -/
def get_port_status (attempt : Nat → Int) : Int × Nat :=
  get_status_retry_loop attempt USB_STS_RETRIES 0 (-ETIMEDOUT)

example : get_port_status (fun _ => 4) = (4, 1) := by decide
example : get_port_status (fun k => if k = 0 then -ETIMEDOUT else 4) = (4, 2) := by decide
example : get_port_status (fun _ => -ETIMEDOUT) = (-ETIMEDOUT, 5) := by decide
example : get_port_status (fun k => if k = 0 then -EPIPE else -ENODEV) = (-ENODEV, 2) := by decide

/-! ## C5: hub_port_wait_reset (u_serial.h lines 2171-2233)

Port status reads are again an input stream; each loop iteration sleeps
delay milliseconds, so the model records the slept delays in a list.  The
wider function also derives the device speed when a device pointer was
passed; that assignment is kept in the model as an optional speed output. -/

inductive UsbSpeed where
  | wireless
  | super
  | high
  | low
  | full
deriving DecidableEq, Repr

structure ResetOutcome where
  ret : Int
  slept : List Nat
  speed : Option UsbSpeed
deriving DecidableEq, Repr

/-- hub_port_warm_reset_required, u_serial.h lines 2162-2169, with
hub_is_superspeed(hub.hdev) passed as a boolean. -/
def hub_port_warm_reset_required (superspeed : Bool) (portstatus : Nat) : Bool :=
  superspeed &&
    ((portstatus &&& USB_PORT_STAT_LINK_STATE == USB_SS_PORT_LS_SS_INACTIVE) ||
     (portstatus &&& USB_PORT_STAT_LINK_STATE == USB_SS_PORT_LS_COMP_MOD))

/-- The polling loop of hub_port_wait_reset.  State: k next sample index,
delay_time and delay the C locals, slept the recorded msleep calls, and
(prevStatus, prevChange) the last decoded words (read when the loop exits
by its condition).  Returns either the early error return or the final
(portstatus, portchange, slept).  fuel bounds the recursion; 821 suffices
for every positive delay because delay_time grows by at least 1 per
iteration until it reaches HUB_RESET_TIMEOUT. -/
def hub_port_wait_reset_loop (sample : Nat → PortSample) :
    Nat → Nat → Nat → Nat → List Nat → Nat → Nat →
    Except (Int × List Nat) (Nat × Nat × List Nat)
  | 0, _, _, _, slept, prevStatus, prevChange => .ok (prevStatus, prevChange, slept)
  | fuel + 1, k, delay_time, delay, slept, prevStatus, prevChange =>
    if delay_time < HUB_RESET_TIMEOUT then
      let slept' := slept ++ [delay]
      let s := sample k
      if s.ret < 0 then .error (s.ret, slept')
      else if s.status &&& USB_PORT_STAT_RESET == 0 then .ok (s.status, s.change, slept')
      else
        let delay' := if 2 * HUB_SHORT_RESET_TIME ≤ delay_time then HUB_LONG_RESET_TIME else delay
        hub_port_wait_reset_loop sample fuel (k + 1) (delay_time + delay') delay' slept'
          s.status s.change
    else .ok (prevStatus, prevChange, slept)

/-- hub_port_wait_reset, u_serial.h lines 2171-2233.  superspeed models
hub_is_superspeed(hub.hdev), wusb models hub_is_wusb(hub), hasUdev whether
a non-NULL udev was passed (the speed is only assigned then). -/
def hub_port_wait_reset (sample : Nat → PortSample) (superspeed wusb hasUdev : Bool)
    (delay : Nat) : ResetOutcome :=
  match hub_port_wait_reset_loop sample 821 0 0 delay [] 0 0 with
  | .error (e, slept) => ⟨e, slept, none⟩
  | .ok (portstatus, portchange, slept) =>
    if portstatus &&& USB_PORT_STAT_RESET != 0 then ⟨-EBUSY, slept, none⟩
    else if hub_port_warm_reset_required superspeed portstatus then ⟨-ENOTCONN, slept, none⟩
    else if portstatus &&& USB_PORT_STAT_CONNECTION == 0 then ⟨-ENOTCONN, slept, none⟩
    else if !superspeed && (portchange &&& USB_PORT_STAT_C_CONNECTION != 0) then
      ⟨-ENOTCONN, slept, none⟩
    else if portstatus &&& USB_PORT_STAT_ENABLE == 0 then ⟨-EBUSY, slept, none⟩
    else if !hasUdev then ⟨0, slept, none⟩
    else if wusb then ⟨0, slept, some .wireless⟩
    else if superspeed then ⟨0, slept, some .super⟩
    else if portstatus &&& USB_PORT_STAT_HIGH_SPEED != 0 then ⟨0, slept, some .high⟩
    else if portstatus &&& USB_PORT_STAT_LOW_SPEED != 0 then ⟨0, slept, some .low⟩
    else ⟨0, slept, some .full⟩

example :
    hub_port_wait_reset (fun _ => ⟨0, USB_PORT_STAT_RESET, 0⟩) false false false 10 =
      ⟨-EBUSY, [10, 10, 10, 200, 200, 200], none⟩ := by decide

example :
    hub_port_wait_reset (fun _ => ⟨0, 3, 0⟩) false false true 10 =
      ⟨0, [10], some .full⟩ := by decide

/-! ## C6 and C7: choose_devnum and release_devnum (u_serial.h lines 1682-1711)

The per-bus 128-bit device-number map bus.devmap.devicemap is modelled as
a predicate on bit positions; devnum_next is the next-start position.  A
device carries the fields choose_devnum and release_devnum touch: devnum
(an int, -1 after release), portnum and the wusb flag. -/

structure UsbBusDevmap where
  devicemap : Nat → Bool
  devnum_next : Nat

structure ChooseDev where
  devnum : Int
  portnum : Nat
  wusb : Bool
deriving DecidableEq, Repr

/-- find_next_zero_bit(map, size, offset) of the kernel bitmap library:
the least position i with offset ≤ i < size whose bit is clear, or size
when there is none (also when offset ≥ size). -/
def find_next_zero_bit_go (map : Nat → Bool) (size : Nat) : Nat → Nat → Nat
  | _, 0 => size
  | i, fuel + 1 =>
    if size ≤ i then size
    else if !map i then i
    else find_next_zero_bit_go map size (i + 1) fuel

def find_next_zero_bit (map : Nat → Bool) (size offset : Nat) : Nat :=
  find_next_zero_bit_go map size offset (size - offset)

/-- choose_devnum, u_serial.h lines 1682-1703.  For a wusb device the
number is portnum + 1 (the BUG_ON asserting that its bit is free is a
precondition of the callers, carried as a hypothesis where needed); for
the others the map is scanned from devnum_next, wrapping to 1.  Under
devnum < 128 the bit is set and the number assigned. -/
def choose_devnum (udev : ChooseDev) (bus : UsbBusDevmap) : ChooseDev × UsbBusDevmap :=
  let (devnum, bus') :=
    if udev.wusb then (udev.portnum + 1, bus)
    else
      let d0 := find_next_zero_bit bus.devicemap 128 bus.devnum_next
      let d := if 128 ≤ d0 then find_next_zero_bit bus.devicemap 128 1 else d0
      (d, { bus with devnum_next := if 127 ≤ d then 1 else d + 1 })
  if devnum < 128 then
    ({ udev with devnum := (devnum : Int) },
     { bus' with devicemap := fun i => i == devnum || bus'.devicemap i })
  else (udev, bus')

/-- release_devnum, u_serial.h lines 1705-1711. -/
def release_devnum (udev : ChooseDev) (bus : UsbBusDevmap) : ChooseDev × UsbBusDevmap :=
  if 0 < udev.devnum then
    ({ udev with devnum := -1 },
     { bus with devicemap := fun i => if (i : Int) == udev.devnum then false else bus.devicemap i })
  else (udev, bus)

example :
    (choose_devnum ⟨0, 3, false⟩ ⟨fun i => i == 1, 1⟩).1.devnum = 2 := by decide
example :
    (choose_devnum ⟨0, 3, false⟩ ⟨fun i => decide (i ≤ 126), 100⟩).1.devnum = 127 := by decide
example :
    (choose_devnum ⟨0, 3, false⟩ ⟨fun i => decide (i ≤ 126), 100⟩).2.devnum_next = 1 := by decide
example :
    (choose_devnum ⟨0, 3, false⟩ ⟨fun i => decide (2 ≤ i), 100⟩).1.devnum = 1 := by decide

/-! ### C7: the allocation state machine

The claim is an invariant over the operations that touch the map: a device
being attached runs choose_devnum on the bus, a device being removed runs
release_devnum.  The system state is the bus map together with the set of
attached devices. -/

structure BusState where
  bus : UsbBusDevmap
  attached : List ChooseDev

/-- One step of the allocation interface: attaching a fresh (unaddressed)
device allocates its number with choose_devnum; a wusb attach carries the
BUG_ON of choose_devnum as a precondition; detaching releases the number
with release_devnum. -/
inductive BusStep : BusState → BusState → Prop
  | attach (s : BusState) (udev : ChooseDev)
      (h0 : udev.devnum = 0) (hw : udev.wusb = false) :
      BusStep s ⟨(choose_devnum udev s.bus).2, (choose_devnum udev s.bus).1 :: s.attached⟩
  | attach_wusb (s : BusState) (udev : ChooseDev)
      (h0 : udev.devnum = 0) (hw : udev.wusb = true)
      (hfree : s.bus.devicemap (udev.portnum + 1) = false) :
      BusStep s ⟨(choose_devnum udev s.bus).2, (choose_devnum udev s.bus).1 :: s.attached⟩
  | detach (s : BusState) (udev : ChooseDev) (hmem : udev ∈ s.attached) :
      BusStep s ⟨(release_devnum udev s.bus).2, s.attached.erase udev⟩

/-- The invariant of C7: every attached device holding a nonzero number
has its bit set in the map, and no two attached devices hold the same
nonzero number. -/
def DevnumInv (s : BusState) : Prop :=
  (∀ d ∈ s.attached, 1 ≤ d.devnum → s.bus.devicemap d.devnum.toNat = true) ∧
  s.attached.Pairwise (fun a b => 1 ≤ a.devnum → 1 ≤ b.devnum → a.devnum ≠ b.devnum)

/-! ## C8: kick_khubd and hub_disconnect (u_serial.h lines 519-533 and 1388-1428)

Hubs are identified by a Nat; the pending-event queue hub_event_list is a
list of hub ids in arrival order, the disconnected flags a predicate.  All
three queue mutations in the source run under hub_event_lock, so each is
one atomic step here. -/

structure HubQState where
  queue : List Nat
  disconnected : Nat → Bool

/-- kick_khubd, u_serial.h lines 519-533: under the lock, the hub is
appended only when it is not disconnected and its list node is empty
(equivalently, it is not on the queue). -/
def kick_khubd (h : Nat) (s : HubQState) : HubQState :=
  if s.disconnected h = false ∧ h ∉ s.queue then
    { s with queue := s.queue ++ [h] }
  else s

/-- The queue mutation of hub_disconnect, u_serial.h lines 1394-1401:
under the lock, the hub is removed from the queue if present and its
disconnected flag is set. -/
def hub_disconnect_queue (h : Nat) (s : HubQState) : HubQState :=
  { queue := s.queue.erase h,
    disconnected := fun x => if x == h then true else s.disconnected x }

/-- The dequeue done by the event worker hub_events (list_del_init of the
first entry, under the same lock). -/
def hub_events_dequeue (s : HubQState) : HubQState :=
  { s with queue := s.queue.tail }

inductive HubQStep : HubQState → HubQState → Prop
  | kick (s : HubQState) (h : Nat) : HubQStep s (kick_khubd h s)
  | disconnect (s : HubQState) (h : Nat) : HubQStep s (hub_disconnect_queue h s)
  | dequeue (s : HubQState) : HubQStep s (hub_events_dequeue s)

/-- The invariant of C8: no hub appears twice on the queue, and a
disconnected hub is not on the queue at all. -/
def HubQInv (s : HubQState) : Prop :=
  s.queue.Nodup ∧ ∀ h, s.disconnected h = true → h ∉ s.queue

/-! ## C9: find_port_owner, usb_hub_claim_port, usb_hub_release_port
(u_serial.h lines 1556-1598)

The hub is modelled by the fields the three functions read: whether
usb_hub_to_struct_hub(hdev) is non-NULL, whether hdev.state is
USB_STATE_NOTATTACHED, maxchild, and the port_owner slots (owner handles
are Nats standing for dev_state pointers). -/

structure PortOwnerHub where
  present : Bool
  stateNotAttached : Bool
  maxchild : Nat
  owners : List (Option Nat)
deriving DecidableEq, Repr

/-- find_port_owner, u_serial.h lines 1556-1568: validates the hub and the
port number and returns the index of the owner slot. -/
def find_port_owner (h : PortOwnerHub) (port1 : Nat) : Except Int Nat :=
  if !h.present || h.stateNotAttached then .error (-ENODEV)
  else if port1 == 0 || h.maxchild < port1 then .error (-EINVAL)
  else .ok (port1 - 1)

/-- usb_hub_claim_port, u_serial.h lines 1570-1583. -/
def usb_hub_claim_port (h : PortOwnerHub) (port1 : Nat) (owner : Nat) : Int × PortOwnerHub :=
  match find_port_owner h port1 with
  | .error e => (e, h)
  | .ok idx =>
    if (h.owners.getD idx none).isSome then (-EBUSY, h)
    else (0, { h with owners := h.owners.set idx (some owner) })

/-- usb_hub_release_port, u_serial.h lines 1585-1598. -/
def usb_hub_release_port (h : PortOwnerHub) (port1 : Nat) (owner : Nat) : Int × PortOwnerHub :=
  match find_port_owner h port1 with
  | .error e => (e, h)
  | .ok idx =>
    if h.owners.getD idx none != some owner then (-ENOENT, h)
    else (0, { h with owners := h.owners.set idx none })

example : usb_hub_claim_port ⟨true, false, 2, [none, some 7]⟩ 2 9 = (-EBUSY, ⟨true, false, 2, [none, some 7]⟩) := by decide
example : usb_hub_claim_port ⟨true, false, 2, [none, none]⟩ 2 9 = (0, ⟨true, false, 2, [none, some 9]⟩) := by decide
example : usb_hub_release_port ⟨true, false, 2, [none, some 7]⟩ 2 9 = (-ENOENT, ⟨true, false, 2, [none, some 7]⟩) := by decide
example : usb_hub_claim_port ⟨true, false, 2, [none, none]⟩ 3 9 = (-EINVAL, ⟨true, false, 2, [none, none]⟩) := by decide
example : usb_hub_claim_port ⟨false, false, 2, [none, none]⟩ 3 9 = (-ENODEV, ⟨false, false, 2, [none, none]⟩) := by decide

/-! ## C10: usb_hub_find_child (u_serial.h lines 4486-4495)

The hub is modelled by presence of the hub structure, maxchild, and the
per-port child slots (child device ids); port1 is a C int, so an Int. -/

structure FindChildHub where
  present : Bool
  maxchild : Nat
  children : List (Option Nat)

/-- usb_hub_find_child, u_serial.h lines 4486-4495. -/
def usb_hub_find_child (h : FindChildHub) (port1 : Int) : Option Nat :=
  if !h.present || port1 < 1 || (h.maxchild : Int) < port1 then none
  else h.children.getD (port1.toNat - 1) none

example : usb_hub_find_child ⟨true, 2, [some 5, none]⟩ 1 = some 5 := by decide
example : usb_hub_find_child ⟨true, 2, [some 5, none]⟩ 0 = none := by decide
example : usb_hub_find_child ⟨true, 2, [some 5, none]⟩ (-3) = none := by decide
example : usb_hub_find_child ⟨true, 2, [some 5, none]⟩ 3 = none := by decide
example : usb_hub_find_child ⟨false, 2, [some 5, none]⟩ 1 = none := by decide

/-! ## C2: usb_set_device_state, recursively_mark_NOTATTACHED, usb_disconnect
(u_serial.h lines 1629-1680 and 1729-1791)

A device is modelled with the fields these functions touch: the lifecycle
state, the device number, the active_duration bookkeeping, whether
usb_hub_to_struct_hub(udev) is non-NULL (the device is a configured hub
with maxchild > 0), and the list of its non-NULL port children (NULL port
slots are skipped by every loop involved, so only actual children are
kept).  The device_set_wakeup_capable call at the end of
usb_set_device_state only feeds the external power collaborator and does
not touch any field modelled here. -/

inductive DevState where
  | NOTATTACHED
  | ATTACHED
  | POWERED
  | RECONNECTING
  | UNAUTHENTICATED
  | DEFAULT
  | ADDRESS
  | CONFIGURED
  | SUSPENDED
deriving DecidableEq, Repr

inductive UsbDev where
  | mk (state : DevState) (devnum : Int) (active_duration : Int) (hubPresent : Bool)
      (children : List UsbDev)

def UsbDev.state : UsbDev → DevState
  | .mk st _ _ _ _ => st

def UsbDev.devnum : UsbDev → Int
  | .mk _ dn _ _ _ => dn

def UsbDev.hubPresent : UsbDev → Bool
  | .mk _ _ _ hp _ => hp

def UsbDev.children : UsbDev → List UsbDev
  | .mk _ _ _ _ cs => cs

mutual

/-- recursively_mark_NOTATTACHED, u_serial.h lines 1629-1644.  Note the
early return when usb_hub_to_struct_hub(udev) is NULL: the device is then
left untouched, its own state included. -/
def recursively_mark_NOTATTACHED (jiffies : Int) : UsbDev → UsbDev
  | .mk st dn ad hp cs =>
    if hp then
      .mk .NOTATTACHED dn (if st = .SUSPENDED then ad - jiffies else ad) hp
        (mark_children_NOTATTACHED jiffies cs)
    else .mk st dn ad hp cs

/-- The child loop of recursively_mark_NOTATTACHED (ports are walked in
order; NULL children are skipped and hence absent from the model). -/
def mark_children_NOTATTACHED (jiffies : Int) : List UsbDev → List UsbDev
  | [] => []
  | c :: cs => recursively_mark_NOTATTACHED jiffies c :: mark_children_NOTATTACHED jiffies cs

end

/-- usb_set_device_state, u_serial.h lines 1646-1680, restricted to the
fields it mutates (the wakeup capability computation only parametrises the
external device_set_wakeup_capable call). -/
def usb_set_device_state (jiffies : Int) (udev : UsbDev) (new_state : DevState) : UsbDev :=
  match udev with
  | .mk st dn ad hp cs =>
    if st = .NOTATTACHED then .mk st dn ad hp cs
    else if new_state ≠ .NOTATTACHED then
      let ad' :=
        if st = .SUSPENDED ∧ new_state ≠ .SUSPENDED then ad - jiffies
        else if new_state = .SUSPENDED ∧ st ≠ .SUSPENDED then ad + jiffies
        else ad
      .mk new_state dn ad' hp cs
    else recursively_mark_NOTATTACHED jiffies (.mk st dn ad hp cs)

/-- usb_set_device_state together with the per-bus device-number map: the
function never reads or writes bus.devmap, so the map component is
returned unchanged. -/
def usb_set_device_state_bus (jiffies : Int) (s : UsbDev × (Nat → Bool))
    (new_state : DevState) : UsbDev × (Nat → Bool) :=
  (usb_set_device_state jiffies s.1 new_state, s.2)

mutual

/-- The device-number-map footprint of usb_disconnect, u_serial.h lines
1729-1791: the subtree is marked NOTATTACHED (no map effect), the children
are disconnected in port order (each clearing its own subtree), and then
release_devnum clears the number of the device itself. -/
def usb_disconnect_devmap : UsbDev → (Nat → Bool) → (Nat → Bool)
  | .mk _ dn _ hp cs, map =>
    let map1 := if hp then usb_disconnect_children_devmap cs map else map
    if 0 < dn then fun i => if (i : Int) == dn then false else map1 i else map1

def usb_disconnect_children_devmap : List UsbDev → (Nat → Bool) → (Nat → Bool)
  | [], map => map
  | c :: cs, map => usb_disconnect_children_devmap cs (usb_disconnect_devmap c map)

end

mutual

def countNodes : UsbDev → Nat
  | .mk _ _ _ _ cs => 1 + countNodesList cs

def countNodesList : List UsbDev → Nat
  | [] => 0
  | c :: cs => countNodes c + countNodesList cs

end

mutual

/-- Number of devices of the tree currently in the given state. -/
def countInState (s : DevState) : UsbDev → Nat
  | .mk st _ _ _ cs => (if st = s then 1 else 0) + countInStateList s cs

def countInStateList (s : DevState) : List UsbDev → Nat
  | [] => 0
  | c :: cs => countInState s c + countInStateList s cs

end

mutual

/-- Every device of the subtree has its hub structure present. -/
def allHubPresent : UsbDev → Bool
  | .mk _ _ _ hp cs => hp && allHubPresentList cs

def allHubPresentList : List UsbDev → Bool
  | [] => true
  | c :: cs => allHubPresent c && allHubPresentList cs

end

mutual

/-- Well-formedness inherited from the C layout: children live inside the
hub structure, so a device without one has no children. -/
def wfDev : UsbDev → Bool
  | .mk _ _ _ hp cs => (hp || cs.isEmpty) && wfDevList cs

def wfDevList : List UsbDev → Bool
  | [] => true
  | c :: cs => wfDev c && wfDevList cs

end

mutual

/-- The positive device numbers held by the subtree. -/
def heldNums : UsbDev → List Int
  | .mk _ dn _ _ cs => (if 0 < dn then [dn] else []) ++ heldNumsList cs

def heldNumsList : List UsbDev → List Int
  | [] => []
  | c :: cs => heldNums c ++ heldNumsList cs

end

/-- A two-level example tree: a hub with number 1 and two leaf children. -/
def exTree : UsbDev :=
  .mk .CONFIGURED 1 0 true
    [.mk .CONFIGURED 2 0 false [], .mk .SUSPENDED 3 5 false []]

example : countNodes exTree = 3 := by decide
example : heldNums exTree = [1, 2, 3] := by decide
example :
    countInState .NOTATTACHED (usb_set_device_state 0 exTree .NOTATTACHED) = 1 := by decide
example :
    usb_disconnect_devmap exTree (fun i => i ≤ 7) 2 = false := by decide
example :
    usb_disconnect_devmap exTree (fun i => i ≤ 7) 4 = true := by decide

/-! # Theorems -/

/-- C3: for every SuperSpeed device whose Path Exit Latency for a link
state has been computed, usb_set_lpm_sel computes the System Exit Latency
as SEL = PEL + 2100 + 250 * (numHubs - 1) + 250 * numHubs nanoseconds when
the number of external hubs between the device and the root port is
positive, and SEL = PEL when it is zero (the hypothesis rules out 32-bit
wrap-around, which cannot occur for real exit latencies). -/
theorem C3_usb_set_lpm_sel_formula (parent : UsbAncestry) (pel : Nat)
    (hfit : pel + 2100 + 250 * (num_hubs_loop parent - 1) +
      250 * num_hubs_loop parent < 2 ^ 32) :
    usb_set_lpm_sel parent pel =
      if 0 < num_hubs_loop parent then
        pel + 2100 + 250 * (num_hubs_loop parent - 1) + 250 * num_hubs_loop parent
      else pel := by
  have h32 : (2 : ℕ) ^ 32 = 4294967296 := by norm_num
  simp only [usb_set_lpm_sel, h32] at *
  split_ifs with h <;> omega

/-- Witness for C3: a device behind two external hubs with PEL 100000 ns. -/
theorem C3_witness :
    (100000 + 2100 + 250 * (num_hubs_loop (chainOfDepth 2) - 1) +
      250 * num_hubs_loop (chainOfDepth 2) < 2 ^ 32) ∧
    usb_set_lpm_sel (chainOfDepth 2) 100000 =
      if 0 < num_hubs_loop (chainOfDepth 2) then
        100000 + 2100 + 250 * (num_hubs_loop (chainOfDepth 2) - 1) +
          250 * num_hubs_loop (chainOfDepth 2)
      else 100000 :=
  ⟨by decide, C3_usb_set_lpm_sel_formula (chainOfDepth 2) 100000 (by decide)⟩

/-- C10: usb_hub_find_child is total over all port numbers: whenever the
hub structure is absent, or the port number is below 1 or above maxchild,
it returns no child; for every in-range port number the index into the
port array is in bounds and the result is exactly the child slot of that
port. -/
theorem C10_usb_hub_find_child_total (h : FindChildHub) (port1 : Int)
    (hlen : h.children.length = h.maxchild) :
    ((h.present = false ∨ port1 < 1 ∨ (h.maxchild : Int) < port1) →
      usb_hub_find_child h port1 = none) ∧
    (h.present = true → 1 ≤ port1 → port1 ≤ (h.maxchild : Int) →
      ∃ hlt : port1.toNat - 1 < h.children.length,
        usb_hub_find_child h port1 = h.children.get ⟨port1.toNat - 1, hlt⟩) := by
  constructor
  · intro hc
    unfold usb_hub_find_child
    split
    · rfl
    · next hcond =>
      simp only [Bool.or_eq_true, Bool.not_eq_true', decide_eq_true_eq, not_or,
        Bool.not_eq_false] at hcond
      rcases hc with hc | hc | hc <;> simp_all
  · intro hp h1 h2
    have hlt : port1.toNat - 1 < h.children.length := by
      rw [hlen]; omega
    refine ⟨hlt, ?_⟩
    unfold usb_hub_find_child
    rw [if_neg, List.getD_eq_get h.children none hlt]
    simp only [Bool.or_eq_true, Bool.not_eq_true', decide_eq_true_eq, not_or,
      Bool.not_eq_false]
    exact ⟨⟨hp, by omega⟩, by omega⟩

/-- Witness for C10: a two-port hub, port 1 holding child 5. -/
theorem C10_witness :
    ((⟨true, 2, [some 5, none]⟩ : FindChildHub).children.length =
      (⟨true, 2, [some 5, none]⟩ : FindChildHub).maxchild) ∧
    (((⟨true, 2, [some 5, none]⟩ : FindChildHub).present = false ∨ (3 : Int) < 1 ∨
        (((⟨true, 2, [some 5, none]⟩ : FindChildHub).maxchild : Int) < 3) →
      usb_hub_find_child ⟨true, 2, [some 5, none]⟩ 3 = none)) :=
  ⟨by decide, (C10_usb_hub_find_child_total ⟨true, 2, [some 5, none]⟩ 3 (by decide)).1⟩

/-- C9: the exclusive port-ownership interface fails without modifying
state: on a present, attached hub, an out-of-range port number (0 or
above maxchild) makes both usb_hub_claim_port and usb_hub_release_port
return -EINVAL with the hub unchanged; claiming an already-owned port
returns -EBUSY with the hub unchanged; releasing with an owner handle
different from the recorded one returns -ENOENT with the hub unchanged. -/
theorem C9_port_ownership_failures (h : PortOwnerHub) (port1 owner : Nat)
    (hpresent : h.present = true) (hstate : h.stateNotAttached = false) :
    ((port1 = 0 ∨ h.maxchild < port1) →
      usb_hub_claim_port h port1 owner = (-EINVAL, h) ∧
      usb_hub_release_port h port1 owner = (-EINVAL, h)) ∧
    (1 ≤ port1 → port1 ≤ h.maxchild →
      ((h.owners.getD (port1 - 1) none).isSome = true →
        usb_hub_claim_port h port1 owner = (-EBUSY, h)) ∧
      (h.owners.getD (port1 - 1) none ≠ some owner →
        usb_hub_release_port h port1 owner = (-ENOENT, h))) := by
  have hfp : ∀ hrange : port1 = 0 ∨ h.maxchild < port1,
      find_port_owner h port1 = .error (-EINVAL) := by
    intro hrange
    unfold find_port_owner
    rw [if_neg, if_pos]
    · rcases hrange with hr | hr <;> simp [hr]
    · simp [hpresent, hstate]
  have hok : 1 ≤ port1 → port1 ≤ h.maxchild →
      find_port_owner h port1 = .ok (port1 - 1) := by
    intro h1 h2
    unfold find_port_owner
    rw [if_neg, if_neg]
    · simp; omega
    · simp [hpresent, hstate]
  constructor
  · intro hrange
    constructor
    · unfold usb_hub_claim_port
      rw [hfp hrange]
    · unfold usb_hub_release_port
      rw [hfp hrange]
  · intro h1 h2
    constructor
    · intro hbusy
      unfold usb_hub_claim_port
      rw [hok h1 h2]
      exact if_pos hbusy
    · intro hne
      unfold usb_hub_release_port
      rw [hok h1 h2]
      exact if_pos (bne_iff_ne.mpr hne)

/-- Witness for C9: a present two-port hub with port 2 owned by handle 7;
claiming port 2 with handle 9 fails -EBUSY and leaves the hub unchanged. -/
theorem C9_witness :
    ((⟨true, false, 2, [none, some 7]⟩ : PortOwnerHub).present = true) ∧
    ((⟨true, false, 2, [none, some 7]⟩ : PortOwnerHub).stateNotAttached = false) ∧
    (1 ≤ 2) ∧ (2 ≤ (⟨true, false, 2, [none, some 7]⟩ : PortOwnerHub).maxchild) ∧
    (((⟨true, false, 2, [none, some 7]⟩ : PortOwnerHub).owners.getD (2 - 1) none).isSome =
      true) ∧
    usb_hub_claim_port ⟨true, false, 2, [none, some 7]⟩ 2 9 =
      (-EBUSY, ⟨true, false, 2, [none, some 7]⟩) :=
  ⟨by decide, by decide, by decide, by decide, by decide,
    ((C9_port_ownership_failures ⟨true, false, 2, [none, some 7]⟩ 2 9 (by decide)
      (by decide)).2 (by decide) (by decide)).1 (by decide)⟩

/-- Characterisation of the GET_STATUS retry loop: starting with a
retryable status and positive fuel, at least one attempt is made, at most
fuel attempts are made, the returned status is that of the last attempt,
every attempt before the last returned a retryable error, and if the loop
stopped before exhausting its fuel the last attempt was not retryable. -/
theorem get_status_retry_loop_spec (attempt : Nat → Int) :
    ∀ fuel i status, (status = -ETIMEDOUT ∨ status = -EPIPE) → 0 < fuel →
      i < (get_status_retry_loop attempt fuel i status).2 ∧
      (get_status_retry_loop attempt fuel i status).2 ≤ i + fuel ∧
      (get_status_retry_loop attempt fuel i status).1 =
        attempt ((get_status_retry_loop attempt fuel i status).2 - 1) ∧
      (∀ j, i ≤ j → j + 1 < (get_status_retry_loop attempt fuel i status).2 →
        attempt j = -ETIMEDOUT ∨ attempt j = -EPIPE) ∧
      ((get_status_retry_loop attempt fuel i status).2 < i + fuel →
        ¬(attempt ((get_status_retry_loop attempt fuel i status).2 - 1) = -ETIMEDOUT ∨
          attempt ((get_status_retry_loop attempt fuel i status).2 - 1) = -EPIPE)) := by
  intro fuel
  induction fuel with
  | zero => intro i status _ h0; omega
  | succ f ih =>
    intro i status hst _
    have hcond : (status == -ETIMEDOUT || status == -EPIPE) = true := by
      rcases hst with h | h <;> simp [h]
    rw [get_status_retry_loop, if_pos hcond]
    by_cases hr : attempt i = -ETIMEDOUT ∨ attempt i = -EPIPE
    · match f with
      | 0 =>
        rw [get_status_retry_loop]
        refine ⟨by omega, by omega, by simp, ?_, by omega⟩
        intro j hij hj1
        simp at hj1
        omega
      | f' + 1 =>
        obtain ⟨ha, hb, hc, hd, he⟩ := ih (i + 1) (attempt i) hr (Nat.succ_pos _)
        refine ⟨by omega, by omega, hc, ?_, by intro hl; exact he (by omega)⟩
        intro j hij hj1
        rcases Nat.eq_or_lt_of_le hij with rfl | hij'
        · exact hr
        · exact hd j (by omega) hj1
    · have hcond' : (attempt i == -ETIMEDOUT || attempt i == -EPIPE) = false := by
        push_neg at hr
        simp [hr.1, hr.2]
      match f with
      | 0 =>
        rw [get_status_retry_loop]
        refine ⟨by omega, by omega, by simp, ?_, by omega⟩
        intro j hij hj1
        simp at hj1
        omega
      | f' + 1 =>
        rw [get_status_retry_loop, if_neg (by simp [hcond'])]
        refine ⟨by omega, by omega, by simp, ?_, fun _ => hr⟩
        intro j hij hj1
        simp at hj1
        omega

/-- C4: get_port_status and get_hub_status issue the GET_STATUS control
transfer at most five times and at least once, retry only while the
previous attempt returned -ETIMEDOUT or -EPIPE, and return the result of
the last attempt; when fewer than five attempts were made, the last
attempt was a success or a non-retryable error, so it ended the loop. -/
theorem C4_get_status_bounded_retries (attempt : Nat → Int) :
    (1 ≤ (get_port_status attempt).2 ∧ (get_port_status attempt).2 ≤ 5 ∧
      (get_port_status attempt).1 = attempt ((get_port_status attempt).2 - 1) ∧
      (∀ j, j + 1 < (get_port_status attempt).2 →
        attempt j = -ETIMEDOUT ∨ attempt j = -EPIPE) ∧
      ((get_port_status attempt).2 < 5 →
        ¬(attempt ((get_port_status attempt).2 - 1) = -ETIMEDOUT ∨
          attempt ((get_port_status attempt).2 - 1) = -EPIPE))) ∧
    (1 ≤ (get_hub_status attempt).2 ∧ (get_hub_status attempt).2 ≤ 5 ∧
      (get_hub_status attempt).1 = attempt ((get_hub_status attempt).2 - 1) ∧
      (∀ j, j + 1 < (get_hub_status attempt).2 →
        attempt j = -ETIMEDOUT ∨ attempt j = -EPIPE) ∧
      ((get_hub_status attempt).2 < 5 →
        ¬(attempt ((get_hub_status attempt).2 - 1) = -ETIMEDOUT ∨
          attempt ((get_hub_status attempt).2 - 1) = -EPIPE))) := by
  obtain ⟨ha, hb, hc, hd, he⟩ :=
    get_status_retry_loop_spec attempt USB_STS_RETRIES 0 (-ETIMEDOUT) (Or.inl rfl)
      (by decide)
  constructor
  · exact ⟨ha, hb, hc, fun j hj => hd j (Nat.zero_le _) hj, he⟩
  · exact ⟨ha, hb, hc, fun j hj => hd j (Nat.zero_le _) hj, he⟩

/-- Witness for C4: a stream whose first attempt times out and whose
second succeeds with 4 transferred bytes. -/
theorem C4_witness :
    (get_port_status (fun k => if k = 0 then -ETIMEDOUT else 4)).2 ≤ 5 ∧
    (get_port_status (fun k => if k = 0 then -ETIMEDOUT else 4)).1 =
      (fun k : Nat => if k = 0 then -ETIMEDOUT else (4 : Int))
        ((get_port_status (fun k => if k = 0 then -ETIMEDOUT else 4)).2 - 1) :=
  ⟨(C4_get_status_bounded_retries (fun k => if k = 0 then -ETIMEDOUT else 4)).1.2.1,
   (C4_get_status_bounded_retries (fun k => if k = 0 then -ETIMEDOUT else 4)).1.2.2.1⟩

/-- C8: a hub is on the pending-event queue at most once, and once its
disconnected flag is set it is never re-added: the queue invariant (no
duplicates, no disconnected hub on the queue) is preserved by every queue
operation of the driver, kick_khubd on a disconnected hub is a no-op, and
no operation ever clears a disconnected flag. -/
theorem C8_hub_event_queue_invariant :
    (∀ s s', HubQInv s → HubQStep s s' → HubQInv s') ∧
    (∀ s h, s.disconnected h = true → kick_khubd h s = s) ∧
    (∀ s s' h, HubQStep s s' → s.disconnected h = true → s'.disconnected h = true) := by
  refine ⟨?_, ?_, ?_⟩
  · rintro s s' ⟨hnd, hdq⟩ step
    cases step with
    | kick h =>
      unfold kick_khubd
      split
      · next hcond =>
        obtain ⟨hdisc, hmem⟩ := hcond
        constructor
        · simp only [List.nodup_append, List.nodup_cons, List.not_mem_nil,
            not_false_iff, List.nodup_nil, and_true, true_and]
          exact ⟨hnd, by intro a ha hb; simp at hb; subst hb; exact hmem ha⟩
        · intro h' hd'
          simp only [List.mem_append, List.mem_singleton, not_or]
          exact ⟨hdq h' hd', by rintro rfl; rw [hd'] at hdisc; cases hdisc⟩
      · exact ⟨hnd, hdq⟩
    | disconnect h =>
      constructor
      · exact hnd.erase h
      · intro h' hd'
        by_cases hh : h' = h
        · subst hh
          exact hnd.not_mem_erase
        · have : s.disconnected h' = true := by
            simpa [hub_disconnect_queue, hh] using hd'
          exact fun hmem => hdq h' this (List.mem_of_mem_erase hmem)
    | dequeue =>
      constructor
      · exact hnd.sublist (List.tail_sublist s.queue)
      · intro h' hd' hmem
        exact hdq h' hd' ((List.tail_sublist s.queue).mem hmem)
  · intro s h hdisc
    unfold kick_khubd
    rw [if_neg]
    simp [hdisc]
  · intro s s' h step hdisc
    cases step with
    | kick h2 =>
      unfold kick_khubd
      split <;> exact hdisc
    | disconnect h2 =>
      by_cases hh : h = h2 <;> simp [hub_disconnect_queue, hh, hdisc]
    | dequeue => exact hdisc

/-- Witness for C8: from the empty queue with no hub disconnected, kicking
hub 0 preserves the invariant. -/
theorem C8_witness :
    HubQInv ⟨[], fun _ => false⟩ ∧ HubQInv (kick_khubd 0 ⟨[], fun _ => false⟩) :=
  have hinv : HubQInv ⟨[], fun _ => false⟩ :=
    ⟨List.nodup_nil, fun _ hd => by cases hd⟩
  ⟨hinv, C8_hub_event_queue_invariant.1 _ _ hinv (HubQStep.kick _ 0)⟩

/-- Specification of find_next_zero_bit_go: the result is at most size;
when below size it is at or after the start position and names a clear
bit; and every position from the start up to the result holds a set bit. -/
theorem find_next_zero_bit_go_spec (map : Nat → Bool) (size : Nat) :
    ∀ fuel i, size ≤ i + fuel →
      find_next_zero_bit_go map size i fuel ≤ size ∧
      (find_next_zero_bit_go map size i fuel < size →
        i ≤ find_next_zero_bit_go map size i fuel ∧
        map (find_next_zero_bit_go map size i fuel) = false) ∧
      (∀ j, i ≤ j → j < find_next_zero_bit_go map size i fuel → map j = true) := by
  intro fuel
  induction fuel with
  | zero =>
    intro i hle
    rw [find_next_zero_bit_go]
    exact ⟨le_refl _, fun h => absurd h (lt_irrefl _),
      fun j hij hj => (by omega : False).elim⟩
  | succ f ih =>
    intro i hle
    rw [find_next_zero_bit_go]
    split
    · next hsz =>
      exact ⟨le_refl _, fun h => absurd h (lt_irrefl _),
        fun j hij hj => (by omega : False).elim⟩
    · next hsz =>
      split
      · next hmi =>
        refine ⟨by omega, fun _ => ⟨le_refl i, by simpa using hmi⟩,
          fun j hij hj => (by omega : False).elim⟩
      · next hmi =>
        obtain ⟨ha, hb, hc⟩ := ih (i + 1) (by omega)
        refine ⟨ha, fun h => ⟨by have := (hb h).1; omega, (hb h).2⟩, ?_⟩
        intro j hij hj
        rcases Nat.eq_or_lt_of_le hij with rfl | hij'
        · simpa using hmi
        · exact hc j (by omega) hj

/-- Specification of find_next_zero_bit as used by choose_devnum. -/
theorem find_next_zero_bit_spec (map : Nat → Bool) (size offset : Nat) :
    find_next_zero_bit map size offset ≤ size ∧
    (find_next_zero_bit map size offset < size →
      offset ≤ find_next_zero_bit map size offset ∧
      map (find_next_zero_bit map size offset) = false) ∧
    (∀ j, offset ≤ j → j < find_next_zero_bit map size offset → map j = true) :=
  find_next_zero_bit_go_spec map size (size - offset) offset (by omega)

/-- find_next_zero_bit returns exactly the least clear bit at or above
offset, when one exists below size. -/
theorem find_next_zero_bit_eq (map : Nat → Bool) (size offset d : Nat)
    (hod : offset ≤ d) (hds : d < size) (hfree : map d = false)
    (hleast : ∀ j, offset ≤ j → j < d → map j = true) :
    find_next_zero_bit map size offset = d := by
  obtain ⟨ha, hb, hc⟩ := find_next_zero_bit_spec map size offset
  have hle : find_next_zero_bit map size offset ≤ d := by
    by_contra hgt
    push_neg at hgt
    rw [hc d hod hgt] at hfree
    cases hfree
  have hlt : find_next_zero_bit map size offset < size := by omega
  obtain ⟨hoff, hzero⟩ := hb hlt
  rcases Nat.eq_or_lt_of_le hle with heq | hlt'
  · exact heq
  · rw [hleast _ hoff hlt'] at hzero
    cases hzero

/-- find_next_zero_bit returns size when every bit at or above offset and
below size is set. -/
theorem find_next_zero_bit_full (map : Nat → Bool) (size offset : Nat)
    (hall : ∀ j, offset ≤ j → j < size → map j = true) :
    find_next_zero_bit map size offset = size := by
  obtain ⟨ha, hb, _⟩ := find_next_zero_bit_spec map size offset
  by_contra hne
  have hlt : find_next_zero_bit map size offset < size := by omega
  obtain ⟨hoff, hzero⟩ := hb hlt
  rw [hall _ hoff hlt] at hzero
  cases hzero

/-- C6: for a non-wireless device, choose_devnum scans the per-bus
128-bit map for the least free bit at or above devnum_next; when none
exists there it wraps and scans from address 1, so address 0 is never
allocated; on success it sets the chosen bit, assigns the number and sets
the next-start position to 1 when the chosen number is 127 or more and to
the successor otherwise; when no bit in 1..127 is free nothing is
assigned, the map is unchanged and the next-start position becomes 1. -/
theorem C6_choose_devnum_allocation (udev : ChooseDev) (bus : UsbBusDevmap)
    (hw : udev.wusb = false) (h1 : 1 ≤ bus.devnum_next) :
    (∀ d : Nat,
      ((bus.devnum_next ≤ d ∧ d < 128 ∧ bus.devicemap d = false ∧
          ∀ j, bus.devnum_next ≤ j → j < d → bus.devicemap j = true) ∨
        ((∀ j, bus.devnum_next ≤ j → j < 128 → bus.devicemap j = true) ∧
          1 ≤ d ∧ d < 128 ∧ bus.devicemap d = false ∧
          ∀ j, 1 ≤ j → j < d → bus.devicemap j = true)) →
      1 ≤ d ∧
      (choose_devnum udev bus).1.devnum = (d : Int) ∧
      (choose_devnum udev bus).2.devicemap = (fun i => i == d || bus.devicemap i) ∧
      (choose_devnum udev bus).2.devnum_next = (if 127 ≤ d then 1 else d + 1)) ∧
    ((∀ j, 1 ≤ j → j < 128 → bus.devicemap j = true) →
      (choose_devnum udev bus).1 = udev ∧
      (choose_devnum udev bus).2.devicemap = bus.devicemap ∧
      (choose_devnum udev bus).2.devnum_next = 1) := by
  constructor
  · intro d hd
    have hd1 : 1 ≤ d := by
      rcases hd with ⟨hnd, _, _, _⟩ | ⟨_, h1d, _, _⟩
      · omega
      · omega
    have hdlt : d < 128 := by
      rcases hd with ⟨_, hlt, _, _⟩ | ⟨_, _, hlt, _⟩ <;> exact hlt
    have hkey : choose_devnum udev bus =
        ({ udev with devnum := (d : Int) },
         { devicemap := fun i => i == d || bus.devicemap i,
           devnum_next := if 127 ≤ d then 1 else d + 1 }) := by
      rcases hd with ⟨hnd, hlt, hfree, hleast⟩ | ⟨hnone, h1d, hlt, hfree, hleast⟩
      · have hr1 : find_next_zero_bit bus.devicemap 128 bus.devnum_next = d :=
          find_next_zero_bit_eq _ _ _ _ hnd hlt hfree hleast
        unfold choose_devnum
        rw [hw]
        simp only [Bool.false_eq_true, if_false, hr1]
        rw [if_neg (by omega : ¬ 128 ≤ d), if_pos (by omega : d < 128)]
      · have hr1 : find_next_zero_bit bus.devicemap 128 bus.devnum_next = 128 :=
          find_next_zero_bit_full _ _ _ hnone
        have hr2 : find_next_zero_bit bus.devicemap 128 1 = d :=
          find_next_zero_bit_eq _ _ _ _ h1d hlt hfree hleast
        unfold choose_devnum
        rw [hw]
        simp only [Bool.false_eq_true, if_false, hr1, hr2]
        simp [hdlt]
    rw [hkey]
    exact ⟨hd1, rfl, rfl, rfl⟩
  · intro hall
    have hr1 : find_next_zero_bit bus.devicemap 128 bus.devnum_next = 128 :=
      find_next_zero_bit_full _ _ _ (fun j hj hj' => hall j (by omega) hj')
    have hr2 : find_next_zero_bit bus.devicemap 128 1 = 128 :=
      find_next_zero_bit_full _ _ _ hall
    have hkey : choose_devnum udev bus =
        (udev, { devicemap := bus.devicemap, devnum_next := 1 }) := by
      unfold choose_devnum
      rw [hw]
      simp only [Bool.false_eq_true, if_false, hr1, hr2]
      norm_num
    rw [hkey]
    exact ⟨rfl, rfl, rfl⟩

/-- Witness for C6: on a bus whose map holds only bit 1 with next-start 1,
the least free bit at or above the start is 2 and is allocated. -/
theorem C6_witness :
    ((⟨0, 3, false⟩ : ChooseDev).wusb = false) ∧
    (1 ≤ (⟨fun i => i == 1, 1⟩ : UsbBusDevmap).devnum_next) ∧
    (choose_devnum ⟨0, 3, false⟩ ⟨fun i => i == 1, 1⟩).1.devnum = (2 : Int) ∧
    (choose_devnum ⟨0, 3, false⟩ ⟨fun i => i == 1, 1⟩).2.devnum_next = 3 :=
  have happ := (C6_choose_devnum_allocation ⟨0, 3, false⟩ ⟨fun i => i == 1, 1⟩
    rfl (by decide)).1 2 (Or.inl ⟨by decide, by decide, by decide, by decide⟩)
  ⟨rfl, by decide, happ.2.1, by rw [happ.2.2.2]; decide⟩

/-- Outcome shape of choose_devnum needed for the allocation invariant:
either nothing observable changes (map and device unchanged), or a number
whose bit was free in the old map is assigned and its bit set.  For a
wusb device the freeness of bit portnum + 1 is the BUG_ON precondition. -/
theorem choose_devnum_result (udev : ChooseDev) (bus : UsbBusDevmap)
    (hpre : udev.wusb = true → bus.devicemap (udev.portnum + 1) = false) :
    ((choose_devnum udev bus).1 = udev ∧
      (choose_devnum udev bus).2.devicemap = bus.devicemap) ∨
    (∃ d : Nat, bus.devicemap d = false ∧
      (choose_devnum udev bus).1 = { udev with devnum := (d : Int) } ∧
      (choose_devnum udev bus).2.devicemap = fun i => i == d || bus.devicemap i) := by
  by_cases hw : udev.wusb = true
  · have hfree := hpre hw
    unfold choose_devnum
    rw [hw]
    simp only [if_true]
    by_cases hlt : udev.portnum + 1 < 128
    · right
      exact ⟨udev.portnum + 1, hfree, by rw [if_pos hlt], by rw [if_pos hlt]⟩
    · left
      rw [if_neg hlt]
      exact ⟨rfl, rfl⟩
  · rw [Bool.not_eq_true] at hw
    obtain ⟨ha1, hb1, hc1⟩ := find_next_zero_bit_spec bus.devicemap 128 bus.devnum_next
    obtain ⟨ha2, hb2, hc2⟩ := find_next_zero_bit_spec bus.devicemap 128 1
    unfold choose_devnum
    rw [hw]
    simp only [Bool.false_eq_true, if_false]
    by_cases hfirst : 128 ≤ find_next_zero_bit bus.devicemap 128 bus.devnum_next
    · rw [if_pos hfirst]
      by_cases hsecond : find_next_zero_bit bus.devicemap 128 1 < 128
      · right
        exact ⟨find_next_zero_bit bus.devicemap 128 1, (hb2 hsecond).2,
          by rw [if_pos hsecond], by rw [if_pos hsecond]⟩
      · left
        rw [if_neg hsecond]
        exact ⟨rfl, rfl⟩
    · rw [if_neg hfirst]
      push_neg at hfirst
      right
      exact ⟨find_next_zero_bit bus.devicemap 128 bus.devnum_next, (hb1 hfirst).2,
        by rw [if_pos hfirst], by rw [if_pos hfirst]⟩

/-- C7: device-number allocation is injective while devices are attached:
the invariant that every attached device with a nonzero number has its
map bit set and that no two attached devices share a nonzero number is
preserved by every attach (choose_devnum) and detach (release_devnum)
step; and after release_devnum frees address 5, a following choose_devnum
reissues exactly 5. -/
theorem C7_devnum_unique :
    (∀ s s', DevnumInv s → BusStep s s' → DevnumInv s') ∧
    (choose_devnum ⟨0, 0, false⟩
      (release_devnum ⟨5, 0, false⟩ ⟨fun i => i == 5, 5⟩).2).1.devnum = 5 := by
  constructor
  · rintro s s' ⟨hbits, hpair⟩ step
    have hstep :
        ∀ (udev : ChooseDev), udev.devnum = 0 →
        (udev.wusb = true → s.bus.devicemap (udev.portnum + 1) = false) →
        DevnumInv ⟨(choose_devnum udev s.bus).2, (choose_devnum udev s.bus).1 :: s.attached⟩ := by
      intro udev h0 hpre
      rcases choose_devnum_result udev s.bus hpre with ⟨hu, hm⟩ | ⟨d, hfree, hu, hm⟩
      · constructor
        · intro e he h1e
          rcases List.mem_cons.mp he with rfl | he'
          · rw [hu, h0] at h1e
            omega
          · rw [hm]
            exact hbits e he' h1e
        · rw [List.pairwise_cons]
          constructor
          · intro e he h1 h2
            rw [hu, h0] at h1
            omega
          · exact hpair
      · constructor
        · intro e he h1e
          rcases List.mem_cons.mp he with rfl | he'
          · rw [hm, hu]
            simp
          · rw [hm]
            have := hbits e he' h1e
            simp [this]
        · rw [List.pairwise_cons]
          constructor
          · intro e he h1 h2 heq
            rw [hu] at heq h1
            simp only at heq h1
            have hd1 : 1 ≤ d := by
              omega
            have : e.devnum.toNat = d := by omega
            have hset := hbits e he h2
            rw [this] at hset
            rw [hset] at hfree
            cases hfree
          · exact hpair
    cases step with
    | attach udev h0 hw =>
      exact hstep udev h0 (fun htrue => absurd htrue (by simp [hw]))
    | attach_wusb udev h0 hw hfree =>
      exact hstep udev h0 (fun _ => hfree)
    | detach udev hmem =>
      unfold release_devnum
      split
      · next hpos =>
        have hperm := List.perm_cons_erase hmem
        have hsymm : ∀ {x y : ChooseDev},
            (1 ≤ x.devnum → 1 ≤ y.devnum → x.devnum ≠ y.devnum) →
            (1 ≤ y.devnum → 1 ≤ x.devnum → y.devnum ≠ x.devnum) :=
          fun hxy h1 h2 => (hxy h2 h1).symm
        have hpair' := (hpair.perm hperm hsymm)
        rw [List.pairwise_cons] at hpair'
        constructor
        · intro e he h1e
          have he' := List.mem_of_mem_erase he
          have hneq : e.devnum ≠ udev.devnum := (hpair'.1 e he (by omega) h1e).symm
          have hset := hbits e he' h1e
          simp only
          rw [if_neg, hset]
          simp only [beq_iff_eq]
          intro hcast
          exact hneq (by omega)
        · exact hpair'.2
      · next hpos =>
        constructor
        · intro e he h1e
          exact hbits e (List.mem_of_mem_erase he) h1e
        · exact hpair.sublist (List.erase_sublist udev s.attached)
  · decide

/-- Witness for C7: attaching a fresh device to the empty bus preserves
the allocation invariant. -/
theorem C7_witness :
    DevnumInv ⟨⟨fun _ => false, 1⟩, []⟩ ∧
    DevnumInv ⟨(choose_devnum ⟨0, 0, false⟩ ⟨fun _ => false, 1⟩).2,
      [(choose_devnum ⟨0, 0, false⟩ ⟨fun _ => false, 1⟩).1]⟩ :=
  have hinv : DevnumInv ⟨⟨fun _ => false, 1⟩, []⟩ :=
    ⟨(fun d hd => by cases hd), List.Pairwise.nil⟩
  ⟨hinv, C7_devnum_unique.1 _ _ hinv (BusStep.attach _ ⟨0, 0, false⟩ rfl rfl)⟩

/-- C5: hub_port_wait_reset polls with sleeps of delay milliseconds until
the reset-in-progress bit reads clear or the accumulated time reaches the
800 ms bound; starting from the 10 ms short delay the per-poll delay
escalates to 200 ms once the accumulated time reaches 20 ms, so a port
that never clears the bit is polled after sleeps of exactly
10, 10, 10, 200, 200, 200 ms and then fails with -EBUSY; a port whose bit
clears at sample k0 stops the polling right there, having slept only the
first k0 + 1 of those delays. -/
theorem C5_hub_port_wait_reset_spec (sample : Nat → PortSample)
    (superspeed wusb hasUdev : Bool) (hret : ∀ k, (sample k).ret = 0) :
    ((∀ k, (sample k).status &&& USB_PORT_STAT_RESET ≠ 0) →
      hub_port_wait_reset sample superspeed wusb hasUdev 10 =
        ⟨-EBUSY, [10, 10, 10, 200, 200, 200], none⟩) ∧
    (∀ k0, k0 ≤ 5 →
      (∀ k, k < k0 → (sample k).status &&& USB_PORT_STAT_RESET ≠ 0) →
      (sample k0).status &&& USB_PORT_STAT_RESET = 0 →
      (hub_port_wait_reset sample superspeed wusb hasUdev 10).slept =
        List.take (k0 + 1) [10, 10, 10, 200, 200, 200]) := by
  constructor
  · intro hset
    have hb : ∀ k, ((sample k).status &&& USB_PORT_STAT_RESET == 0) = false :=
      fun k => beq_eq_false_iff_ne.mpr (hset k)
    have hloop : hub_port_wait_reset_loop sample 821 0 0 10 [] 0 0 =
        .ok ((sample 5).status, (sample 5).change, [10, 10, 10, 200, 200, 200]) := by
      simp [hub_port_wait_reset_loop, hret, hb, HUB_RESET_TIMEOUT,
        HUB_SHORT_RESET_TIME, HUB_LONG_RESET_TIME]
    have hb5 : ((sample 5).status &&& USB_PORT_STAT_RESET != 0) = true :=
      bne_iff_ne.mpr (hset 5)
    simp [hub_port_wait_reset, hloop, hb5]
  · intro k0 hk0 hbefore hclear
    have hc : ((sample k0).status &&& USB_PORT_STAT_RESET == 0) = true := by
      simp [hclear]
    have hloop : hub_port_wait_reset_loop sample 821 0 0 10 [] 0 0 =
        .ok ((sample k0).status, (sample k0).change,
          List.take (k0 + 1) [10, 10, 10, 200, 200, 200]) := by
      interval_cases k0 <;>
        · have hb' := fun k hk => beq_eq_false_iff_ne.mpr (hbefore k hk)
          simp [hub_port_wait_reset_loop, hret, hb', hc, HUB_RESET_TIMEOUT,
            HUB_SHORT_RESET_TIME, HUB_LONG_RESET_TIME]
    simp only [hub_port_wait_reset, hloop]
    simp only [apply_ite ResetOutcome.slept, ite_self]

/-- Witness for C5: a stream that always reports the reset bit set makes
hub_port_wait_reset sleep 10, 10, 10, 200, 200, 200 ms and fail -EBUSY. -/
theorem C5_witness :
    (∀ k : Nat, ((fun _ => (⟨0, USB_PORT_STAT_RESET, 0⟩ : PortSample)) k).ret = 0) ∧
    hub_port_wait_reset (fun _ => ⟨0, USB_PORT_STAT_RESET, 0⟩) false false false 10 =
      ⟨-EBUSY, [10, 10, 10, 200, 200, 200], none⟩ :=
  ⟨fun _ => rfl,
   (C5_hub_port_wait_reset_spec (fun _ => ⟨0, USB_PORT_STAT_RESET, 0⟩) false false false
      (fun _ => rfl)).1 (fun _ => by decide)⟩

/-- Loop lemma for hub_port_debounce under a connection bit that toggles
on every sample: the remembered connection value always disagrees with
the next sample, so the stable counter resets on every iteration and the
loop runs to the 2000 ms bound and returns -ETIMEDOUT. -/
theorem hub_port_debounce_loop_toggle (sample : Nat → PortSample) (must : Bool)
    (hret : ∀ k, (sample k).ret = 0)
    (htog : ∀ k, (sample (k + 1)).status &&& USB_PORT_STAT_CONNECTION ≠
      (sample k).status &&& USB_PORT_STAT_CONNECTION) :
    ∀ fuel k total stable conn, total = 25 * k → k ≤ 80 → fuel + k = 81 →
      conn ≠ (sample k).status &&& USB_PORT_STAT_CONNECTION →
      hub_port_debounce_loop sample must fuel k total stable conn =
        (-ETIMEDOUT, 2000) := by
  intro fuel
  induction fuel with
  | zero => intro k total stable conn h1 h2 h3 h4; omega
  | succ f ih =>
    intro k total stable conn h1 h2 h3 h4
    have hbeq : ((sample k).status &&& USB_PORT_STAT_CONNECTION == conn) = false :=
      beq_eq_false_iff_ne.mpr (fun he => h4 he.symm)
    by_cases hk : k = 80
    · subst hk
      have hge : HUB_DEBOUNCE_TIMEOUT ≤ total := by
        rw [h1]; norm_num [HUB_DEBOUNCE_TIMEOUT]
      simp [hub_port_debounce_loop, hret, hbeq, hge, HUB_DEBOUNCE_STABLE,
        Prod.mk.injEq]
      omega
    · have hlt : ¬ HUB_DEBOUNCE_TIMEOUT ≤ total := by
        rw [h1]
        norm_num [HUB_DEBOUNCE_TIMEOUT]
        omega
      have hrec := ih (k + 1) (total + HUB_DEBOUNCE_STEP) 0
        ((sample k).status &&& USB_PORT_STAT_CONNECTION)
        (by rw [h1]; norm_num [HUB_DEBOUNCE_STEP]; ring) (by omega) (by omega)
        (Ne.symm (htog k))
      simp only [hub_port_debounce_loop, hret, hbeq, HUB_DEBOUNCE_STABLE]
      simp [hlt]
      exact hrec

/-- C1 (amended): hub_port_debounce samples every 25 ms and resets its
stable counter whenever the connection bit changes; with a connection bit
that toggles on every sample the counter never reaches the 100 ms
threshold, the call never returns success, and it returns -ETIMEDOUT
exactly when the total sampling time reaches the 2000 ms total window of
HUB_DEBOUNCE_TIMEOUT (the claimed 1500 ms window matches only the stale
source comment, not the compiled constant). -/
theorem C1_hub_port_debounce_toggle (sample : Nat → PortSample) (must : Bool)
    (hret : ∀ k, (sample k).ret = 0)
    (htog : ∀ k, (sample (k + 1)).status &&& USB_PORT_STAT_CONNECTION ≠
      (sample k).status &&& USB_PORT_STAT_CONNECTION) :
    hub_port_debounce sample must = (-ETIMEDOUT, 2000) := by
  unfold hub_port_debounce
  refine hub_port_debounce_loop_toggle sample must hret htog 81 0 0 0 0xffff
    (by norm_num) (by omega) (by omega) ?_
  have hle : (sample 0).status &&& USB_PORT_STAT_CONNECTION ≤ 1 := by
    have := @Nat.and_le_right ((sample 0).status) USB_PORT_STAT_CONNECTION
    simpa [USB_PORT_STAT_CONNECTION] using this
  omega

/-- C1 counterexample to the claim as stated: with the connection bit
toggling on every sample, hub_port_debounce does time out with -ETIMEDOUT,
but the total sampling time at which it returns is 2000 ms, not the
1500 ms the claim names. -/
theorem C1_counterexample_window :
    (hub_port_debounce toggleSample true).1 = -ETIMEDOUT ∧
    (hub_port_debounce toggleSample true).2 = 2000 ∧
    (hub_port_debounce toggleSample true).2 ≠ 1500 := by decide

/-- Witness for C1: the toggling stream satisfies the hypotheses and the
amended conclusion. -/
theorem C1_witness :
    (∀ k, (toggleSample k).ret = 0) ∧
    hub_port_debounce toggleSample true = (-ETIMEDOUT, 2000) :=
  ⟨fun _ => rfl,
   C1_hub_port_debounce_toggle toggleSample true (fun _ => rfl)
     (by
       intro k
       simp [toggleSample, USB_PORT_STAT_CONNECTION, Nat.and_one_is_mod]
       omega)⟩

mutual

/-- On subtrees all of whose devices have their hub structure present,
recursively_mark_NOTATTACHED puts every node into NOTATTACHED, so the
NOTATTACHED count of the result is the node count of the tree. -/
theorem mark_counts (jiffies : Int) :
    (d : UsbDev) → allHubPresent d = true →
    countInState .NOTATTACHED (recursively_mark_NOTATTACHED jiffies d) = countNodes d
  | .mk st dn ad hp cs, h => by
    rw [allHubPresent, Bool.and_eq_true] at h
    rw [recursively_mark_NOTATTACHED, if_pos h.1, countInState, countNodes,
      mark_counts_list jiffies cs h.2]
    simp

theorem mark_counts_list (jiffies : Int) :
    (cs : List UsbDev) → allHubPresentList cs = true →
    countInStateList .NOTATTACHED (mark_children_NOTATTACHED jiffies cs) =
      countNodesList cs
  | [], _ => rfl
  | c :: cs, h => by
    rw [allHubPresentList, Bool.and_eq_true] at h
    rw [mark_children_NOTATTACHED, countInStateList, countNodesList,
      mark_counts jiffies c h.1, mark_counts_list jiffies cs h.2]

end

mutual

/-- The devicemap footprint of usb_disconnect clears exactly the positive
device numbers held by the subtree and leaves every other bit as it was
(on well-formed trees, where a device without a hub structure has no
children). -/
theorem usb_disconnect_devmap_spec :
    (d : UsbDev) → (map : Nat → Bool) → wfDev d = true → (i : Nat) →
    (((i : Int) ∈ heldNums d → usb_disconnect_devmap d map i = false) ∧
     ((i : Int) ∉ heldNums d → usb_disconnect_devmap d map i = map i))
  | .mk st dn ad hp cs, map, hwf, i => by
    rw [wfDev, Bool.and_eq_true] at hwf
    obtain ⟨hhp, hcs⟩ := hwf
    rw [usb_disconnect_devmap, heldNums]
    by_cases hp' : hp = true
    · rw [if_pos hp']
      have hchild := usb_disconnect_children_devmap_spec cs map hcs i
      by_cases hdn : 0 < dn
      · rw [if_pos hdn]
        simp only [hdn, if_pos]
        constructor
        · intro hmem
          rw [List.mem_append] at hmem
          by_cases hieq : (i : Int) = dn
          · simp [hieq]
          · have hm2 : (i : Int) ∈ heldNumsList cs := by
              rcases hmem with hm | hm
              · rw [List.mem_singleton] at hm
                exact absurd hm hieq
              · exact hm
            simp only [beq_iff_eq, hieq, if_false]
            exact hchild.1 hm2
        · intro hnmem
          rw [List.mem_append, not_or, List.mem_singleton] at hnmem
          simp only [beq_iff_eq, hnmem.1, if_false]
          exact hchild.2 hnmem.2
      · rw [if_neg hdn]
        simp only [hdn, if_neg, if_false]
        constructor
        · intro hmem
          simp only [List.nil_append] at hmem
          exact hchild.1 hmem
        · intro hnmem
          simp only [List.nil_append] at hnmem
          exact hchild.2 hnmem
    · rw [if_neg hp']
      have hempty : cs = [] := by
        rcases Bool.or_eq_true _ _ |>.mp hhp with h | h
        · exact absurd h hp'
        · exact List.isEmpty_iff.mp h
      subst hempty
      by_cases hdn : 0 < dn
      · rw [if_pos hdn]
        simp only [hdn, if_pos]
        constructor
        · intro hmem
          rw [heldNumsList, List.append_nil, List.mem_singleton] at hmem
          simp [hmem]
        · intro hnmem
          rw [heldNumsList, List.append_nil, List.mem_singleton] at hnmem
          simp only [beq_iff_eq, hnmem, if_false]
      · rw [if_neg hdn]
        rw [heldNumsList]
        simp only [hdn, if_neg, if_false, List.append_nil]
        exact ⟨fun hm => absurd hm (List.not_mem_nil _), fun _ => trivial⟩

theorem usb_disconnect_children_devmap_spec :
    (cs : List UsbDev) → (map : Nat → Bool) → wfDevList cs = true → (i : Nat) →
    (((i : Int) ∈ heldNumsList cs → usb_disconnect_children_devmap cs map i = false) ∧
     ((i : Int) ∉ heldNumsList cs → usb_disconnect_children_devmap cs map i = map i))
  | [], map, _, i => ⟨fun h => absurd h (List.not_mem_nil _), fun _ => rfl⟩
  | c :: cs, map, hwf, i => by
    rw [wfDevList, Bool.and_eq_true] at hwf
    obtain ⟨hc, hcs⟩ := hwf
    have hinner := usb_disconnect_devmap_spec c map hc i
    have houter :=
      usb_disconnect_children_devmap_spec cs (usb_disconnect_devmap c map) hcs i
    rw [usb_disconnect_children_devmap, heldNumsList]
    constructor
    · intro hmem
      rw [List.mem_append] at hmem
      by_cases hm2 : (i : Int) ∈ heldNumsList cs
      · exact houter.1 hm2
      · rcases hmem with hm | hm
        · rw [houter.2 hm2]
          exact hinner.1 hm
        · exact absurd hm hm2
    · intro hnmem
      rw [List.mem_append, not_or] at hnmem
      rw [houter.2 hnmem.2]
      exact hinner.2 hnmem.1

end

/-- C2 (amended): on a device whose state is not already NOTATTACHED and
whose whole subtree consists of devices with their hub structure present,
usb_set_device_state to NOTATTACHED puts exactly the device and its N
descendants - N + 1 devices - into state NOTATTACHED, while leaving the
per-bus device-number map untouched; the subtree-held map bits are
cleared not by usb_set_device_state but by usb_disconnect, whose
release_devnum calls clear exactly the positive device numbers held by
the subtree and no other bit. -/
theorem C2_notattached_marking_and_devnum_release :
    (∀ (jiffies : Int) (d : UsbDev) (map : Nat → Bool),
      allHubPresent d = true → d.state ≠ .NOTATTACHED →
      countInState .NOTATTACHED
          (usb_set_device_state_bus jiffies (d, map) .NOTATTACHED).1 =
        1 + countNodesList d.children ∧
      (usb_set_device_state_bus jiffies (d, map) .NOTATTACHED).2 = map) ∧
    (∀ (d : UsbDev) (map : Nat → Bool) (i : Nat), wfDev d = true →
      ((i : Int) ∈ heldNums d → usb_disconnect_devmap d map i = false) ∧
      ((i : Int) ∉ heldNums d → usb_disconnect_devmap d map i = map i)) := by
  constructor
  · intro jiffies d map hall hst
    refine ⟨?_, rfl⟩
    cases d with
    | mk st dn ad hp cs =>
      have hstate : st ≠ .NOTATTACHED := hst
      have hcount : countNodes (UsbDev.mk st dn ad hp cs) =
          1 + countNodesList cs := by
        rw [countNodes]
      calc countInState .NOTATTACHED
            (usb_set_device_state_bus jiffies (UsbDev.mk st dn ad hp cs, map)
              .NOTATTACHED).1 =
          countInState .NOTATTACHED
            (recursively_mark_NOTATTACHED jiffies (UsbDev.mk st dn ad hp cs)) := by
            rw [usb_set_device_state_bus, usb_set_device_state]
            simp [hstate]
        _ = countNodes (UsbDev.mk st dn ad hp cs) := mark_counts jiffies _ hall
        _ = 1 + countNodesList cs := hcount
  · intro d map i hwf
    exact usb_disconnect_devmap_spec d map hwf i

/-- C2 counterexample to the claim as stated: a leaf device (no hub
structure, as for every non-hub device) in state ATTACHED holding device
number 2, on a bus whose map holds bit 2.  It has N = 0 attached
descendants, so the claim promises 1 device in NOTATTACHED and bit 2
cleared; usb_set_device_state leaves the device in ATTACHED (the
early return of recursively_mark_NOTATTACHED skips it) and the map bit
still set (the function never touches the map). -/
theorem C2_counterexample_leaf :
    countInState .NOTATTACHED
        (usb_set_device_state_bus 0
          (UsbDev.mk .ATTACHED 2 0 false [], fun i => i == 2) .NOTATTACHED).1 = 0 ∧
    (usb_set_device_state_bus 0
        (UsbDev.mk .ATTACHED 2 0 false [], fun i => i == 2) .NOTATTACHED).2 2 = true := by
  constructor
  · rfl
  · rfl

/-- Witness for C2: a configured hub with number 1 and one child with
number 2, all hub structures present; marking reaches both devices and
usb_disconnect clears the held bit 2. -/
theorem C2_witness :
    (allHubPresent (UsbDev.mk .CONFIGURED 1 0 true [UsbDev.mk .ATTACHED 2 0 true []]) =
      true) ∧
    ((UsbDev.mk .CONFIGURED 1 0 true [UsbDev.mk .ATTACHED 2 0 true []]).state ≠
      .NOTATTACHED) ∧
    countInState .NOTATTACHED
        (usb_set_device_state_bus 7
          (UsbDev.mk .CONFIGURED 1 0 true [UsbDev.mk .ATTACHED 2 0 true []],
            fun _ => true) .NOTATTACHED).1 =
      1 + countNodesList
        (UsbDev.mk .CONFIGURED 1 0 true [UsbDev.mk .ATTACHED 2 0 true []]).children ∧
    usb_disconnect_devmap
        (UsbDev.mk .CONFIGURED 1 0 true [UsbDev.mk .ATTACHED 2 0 true []])
        (fun _ => true) 2 = false :=
  ⟨by decide, by decide,
   (C2_notattached_marking_and_devnum_release.1 7
      (UsbDev.mk .CONFIGURED 1 0 true [UsbDev.mk .ATTACHED 2 0 true []])
      (fun _ => true) (by decide) (by decide)).1,
   (C2_notattached_marking_and_devnum_release.2
      (UsbDev.mk .CONFIGURED 1 0 true [UsbDev.mk .ATTACHED 2 0 true []])
      (fun _ => true) 2 (by decide)).1 (by decide)⟩
